import Mathlib

/-!
Verification of `scripts/send-test-messages.py`, a utility that builds random
order records and publishes them to a message broker topic in a fixed-count,
fixed-delay loop.

The script is embedded shallowly.  All interaction with the outside world
(the millisecond clock, the wall-clock timestamp, the random number source,
the broker's per-message delivery outcome, operator interrupts raised during
the inter-message sleep) is packaged in an `Env` of per-iteration oracles,
and a run is a pure function from an `Env` and the CLI arguments to the list
of observable events it performs together with how it terminated.
-/

namespace SendTestMessages

/-- `CUSTOMER_IDS`: the fixed sample customer catalog. -/
def CUSTOMER_IDS : List String :=
  ["customer-001", "customer-002", "customer-003", "customer-004", "customer-005"]

/-- `PRODUCT_IDS`: the fixed sample product catalog. -/
def PRODUCT_IDS : List String :=
  ["product-001", "product-002", "product-003", "product-004", "product-005"]

/-- `TOPIC_NAME`. -/
def TOPIC_NAME : String := "orders"

/-- Model of Python `random.choice(pool)`: the element at a random index.
The randomness source `r` is an arbitrary natural number; reduction modulo
the pool length picks the index. -/
def randomChoice (pool : List String) (r : Nat) : String :=
  pool.getD (r % pool.length) ""

/-- Model of Python `random.randint(1, 3)`: a value in `{1, 2, 3}`. -/
def randint1to3 (r : Nat) : Nat := 1 + r % 3

/-- Model of Python `random.sample(pool, k)`: `k` elements chosen without
replacement, i.e. repeatedly pick a random index into what remains of the
pool and remove the picked element.  `r` supplies one random number per
pick. -/
def randomSample (pool : List String) (k : Nat) (r : Nat → Nat) : List String :=
  match k with
  | 0 => []
  | Nat.succ j =>
    if h : pool.length = 0 then []
    else
      let idx := r 0 % pool.length
      have hidx : idx < pool.length := Nat.mod_lt _ (Nat.pos_of_ne_zero h)
      pool.get ⟨idx, hidx⟩ :: randomSample (pool.eraseIdx idx) j (fun n => r (n + 1))

/-- Least-significant-first decimal digits of `n`, with explicit fuel so the
function computes by structural recursion. -/
def decDigitsFuel (fuel n : Nat) : List Nat :=
  match fuel with
  | 0 => []
  | Nat.succ f => if n = 0 then [] else n % 10 :: decDigitsFuel f (n / 10)

/-- Least-significant-first decimal digits of `n` (`n` itself is enough
fuel). -/
def decimalDigits (n : Nat) : List Nat := decDigitsFuel n n

/-- Model of Python `str(n)` (equivalently f-string interpolation) for a
nonnegative integer: its decimal digit characters, most significant first. -/
def decimalStr (n : Nat) : String :=
  if n = 0 then "0" else ((decimalDigits n).map Nat.digitChar).reverse.asString

/-- Outcome of `future.get(timeout=10)` for one message: delivery metadata,
or a `KafkaError`. -/
inductive DeliveryOutcome where
  | ok (topic : String) (partition : Nat) (offset : Nat)
  | kafkaError (msg : String)
deriving DecidableEq

/-- The outside world as seen by one run, one oracle value per loop
iteration `i`:
`clockMs i` is `int(time.time() * 1000)` read while building message `i`;
`nowIso i` is `datetime.now().isoformat()` at that point;
`choiceR i`, `numR i`, `sampleR i` feed `random.choice`, `random.randint`
and `random.sample`; `submitError i` is `some e` when `producer.send`
itself raises for message `i`; `delivery i` is the delivery-future outcome
for message `i`; `interruptInSleep i` is true when the operator raises
`KeyboardInterrupt` during the sleep that follows iteration `i`. -/
structure Env where
  clockMs : Nat → Nat
  nowIso : Nat → String
  choiceR : Nat → Nat
  numR : Nat → Nat
  sampleR : Nat → Nat → Nat
  submitError : Nat → Option String
  delivery : Nat → DeliveryOutcome
  interruptInSleep : Nat → Bool

/-- The order record built by `create_order_message`. -/
structure OrderMessage where
  orderId : String
  customerId : String
  productIds : List String
  timestamp : String
deriving DecidableEq

/-- `create_order_message`, at loop iteration `i`: returns the pair
`(order_id, message)` exactly as the source does. -/
def create_order_message (env : Env) (i : Nat) : String × OrderMessage :=
  let order_id := "order-" ++ decimalStr (env.clockMs i)
  let customer_id := randomChoice CUSTOMER_IDS (env.choiceR i)
  let num_products := randint1to3 (env.numR i)
  let product_ids := randomSample PRODUCT_IDS num_products (env.sampleR i)
  (order_id,
   { orderId := order_id
     customerId := customer_id
     productIds := product_ids
     timestamp := env.nowIso i })

/-- A JSON value as it appears in this payload: a string, or a list of
strings. -/
inductive JVal where
  | jstr (s : String)
  | jlist (xs : List String)
deriving DecidableEq

/-- The JSON object (field-name/value association list, in insertion order)
that `json.dumps` serializes for an order record: the dict literal of
`create_order_message`. -/
def jsonOfOrder (m : OrderMessage) : List (String × JVal) :=
  [("orderId", JVal.jstr m.orderId),
   ("customerId", JVal.jstr m.customerId),
   ("productIds", JVal.jlist m.productIds),
   ("timestamp", JVal.jstr m.timestamp)]

/-- Model of the key serializer `k.encode('utf-8')`. -/
def encodeKey (s : String) : List UInt8 := s.toUTF8.toList

/-- Observable actions of a run.  `publish i t k v` is the call
`producer.send(topic=t, key=k, value=v)` for message `i`; `successReport`
and `failureReport` are the per-message console reports; `sleepFor d` is
`time.sleep(d)`; `closeProducer` is `producer.close()`; `doneMessage` is
the final completion print. -/
inductive Event where
  | connect
  | publish (i : Nat) (topic : String) (key : String) (value : OrderMessage)
  | successReport (i : Nat) (topic : String) (partition : Nat) (offset : Nat)
  | failureReport (i : Nat) (msg : String)
  | sleepFor (d : ℚ)
  | closeProducer
  | doneMessage
deriving DecidableEq

/-- A Python exception escaping `send_messages`. -/
inductive PyErr where
  | keyboardInterrupt
  | submitFailure (msg : String)
deriving DecidableEq

/-- How `send_messages` terminated: normally, or by raising. -/
inductive RunResult where
  | normal
  | raised (e : PyErr)
deriving DecidableEq

/-- The console report for message `i`: the `try`/`except KafkaError` block
around `future.get`, which prints success metadata or the failure line. -/
def reportEvent (env : Env) (i : Nat) : Event :=
  match env.delivery i with
  | DeliveryOutcome.ok t p o => Event.successReport i t p o
  | DeliveryOutcome.kafkaError m => Event.failureReport i m

/-- The for-loop of `send_messages` starting at iteration `i` with
`remaining` iterations still to run, followed by `producer.close()` and the
completion print.  One iteration builds a record, submits it (a submit
error aborts the whole function), waits for delivery (a `KafkaError` is
caught and reported), and sleeps unless this was the last iteration (an
interrupt during the sleep aborts the whole function, skipping
`producer.close()`, which is not in a `finally` block). -/
def sendLoop (env : Env) (delay : ℚ) : Nat → Nat → List Event × RunResult
  | _, 0 => ([Event.closeProducer, Event.doneMessage], RunResult.normal)
  | i, Nat.succ r =>
    let om := create_order_message env i
    match env.submitError i with
    | some e => ([], RunResult.raised (PyErr.submitFailure e))
    | none =>
      let pub := Event.publish i TOPIC_NAME om.1 om.2
      let rep := reportEvent env i
      let rest := sendLoop env delay (i + 1) r
      if r = 0 then
        (pub :: rep :: rest.1, rest.2)
      else if env.interruptInSleep i then
        ([pub, rep], RunResult.raised PyErr.keyboardInterrupt)
      else
        (pub :: rep :: Event.sleepFor delay :: rest.1, rest.2)

/-- `send_messages(num_messages, delay_seconds)`: create the producer, run
the loop (`for i in range(num_messages)`, empty when `num_messages ≤ 0`),
then close and print completion. -/
def send_messages (env : Env) (num_messages : Int) (delay : ℚ) :
    List Event × RunResult :=
  let r := sendLoop env delay 0 num_messages.toNat
  (Event.connect :: r.1, r.2)

/-- `args.count`: `--count` parsed as an integer, default 10. -/
def parsedCount (countArg : Option Int) : Int := countArg.getD 10

/-- `args.delay`: `--delay` parsed as (exactly representable) seconds,
default 2.0. -/
def parsedDelay (delayArg : Option ℚ) : ℚ := delayArg.getD 2

/-- How `main` terminated: normal completion, the `KeyboardInterrupt`
handler, or the top-level `except Exception` handler (which prints the
error and lets the process end). -/
inductive MainOutcome where
  | completed
  | interrupted
  | errorReported (msg : String)
deriving DecidableEq

/-- The top-level `try`/`except KeyboardInterrupt`/`except Exception` of
`main`, applied to how `send_messages` terminated. -/
def dispatchOutcome (r : List Event × RunResult) : List Event × MainOutcome :=
  match r.2 with
  | RunResult.normal => (r.1, MainOutcome.completed)
  | RunResult.raised PyErr.keyboardInterrupt => (r.1, MainOutcome.interrupted)
  | RunResult.raised (PyErr.submitFailure m) => (r.1, MainOutcome.errorReported m)

/-- `main()`: parse the CLI arguments (`none` = flag absent), call
`send_messages`, and dispatch escaping exceptions to the two handlers. -/
def main (env : Env) (countArg : Option Int) (delayArg : Option ℚ) :
    List Event × MainOutcome :=
  dispatchOutcome (send_messages env (parsedCount countArg) (parsedDelay delayArg))

/-- Recognizer for publish events. -/
def isPublish : Event → Bool
  | Event.publish _ _ _ _ => true
  | _ => false

/-- Recognizer for sleep events. -/
def isSleep : Event → Bool
  | Event.sleepFor _ => true
  | _ => false

/-- Number of publish calls in a trace. -/
def publishCount (l : List Event) : Nat := l.countP isPublish

/-- Number of sleeps in a trace. -/
def sleepCount (l : List Event) : Nat := l.countP isSleep

/-- A run whose every `producer.send` returns a future (no submit error). -/
def noSubmitErr (env : Env) : Prop := ∀ i, env.submitError i = none

/-- A run never interrupted by the operator. -/
def noInterrupt (env : Env) : Prop := ∀ i, env.interruptInSleep i = false

/-- A stub environment: constant clock, fixed randomness, a broker that
acknowledges every message at partition 0, no interrupts. -/
def stubEnv : Env where
  clockMs := fun _ => 0
  nowIso := fun _ => "2024-01-01T00:00:00"
  choiceR := fun _ => 0
  numR := fun _ => 0
  sampleR := fun _ _ => 0
  submitError := fun _ => none
  delivery := fun _ => DeliveryOutcome.ok "orders" 0 0
  interruptInSleep := fun _ => false

/-- A stub environment whose broker reports a delivery error for the second
message (index 1) only. -/
def envSecondDeliveryFails : Env :=
  { stubEnv with
    delivery := fun i =>
      if i == 1 then DeliveryOutcome.kafkaError "boom"
      else DeliveryOutcome.ok "orders" 0 0 }

/-- A stub environment where the operator interrupts during the sleep that
follows the first iteration. -/
def envInterruptAfterFirst : Env :=
  { stubEnv with interruptInSleep := fun i => i == 0 }

/-- A stub environment where `producer.send` itself raises on the second
message (index 1). -/
def envSecondSubmitFails : Env :=
  { stubEnv with submitError := fun i => if i == 1 then some "broker down" else none }

/-- A stub environment whose millisecond clock advances every iteration. -/
def envTickingClock : Env :=
  { stubEnv with clockMs := fun i => i }

/-! ## Decimal rendering: computation and injectivity -/

theorem decDigitsFuel_eq_digits :
    ∀ fuel n, n ≤ fuel → decDigitsFuel fuel n = Nat.digits 10 n := by
  intro fuel
  induction fuel with
  | zero =>
    intro n hn
    have : n = 0 := Nat.le_zero.mp hn
    subst this
    simp [decDigitsFuel]
  | succ f ih =>
    intro n hn
    by_cases h0 : n = 0
    · subst h0; simp [decDigitsFuel]
    · have hdiv : n / 10 < n := Nat.div_lt_self (Nat.pos_of_ne_zero h0) (by norm_num)
      rw [decDigitsFuel, if_neg h0, ih (n / 10) (by omega),
        Nat.digits_def' (by norm_num : 1 < 10) (Nat.pos_of_ne_zero h0)]

theorem decimalDigits_eq_digits (n : Nat) : decimalDigits n = Nat.digits 10 n :=
  decDigitsFuel_eq_digits n n le_rfl

theorem decimalDigits_lt (n d : Nat) (hd : d ∈ decimalDigits n) : d < 10 := by
  rw [decimalDigits_eq_digits] at hd
  exact Nat.digits_lt_base (by norm_num) hd

theorem digitChar_inj_lt :
    ∀ a < 10, ∀ b < 10, Nat.digitChar a = Nat.digitChar b → a = b := by decide

theorem map_digitChar_inj :
    ∀ l1 l2 : List Nat, (∀ d ∈ l1, d < 10) → (∀ d ∈ l2, d < 10) →
      l1.map Nat.digitChar = l2.map Nat.digitChar → l1 = l2 := by
  intro l1
  induction l1 with
  | nil =>
    intro l2 _ _ h
    cases l2 with
    | nil => rfl
    | cons b t2 => simp at h
  | cons a t ih =>
    intro l2 h1 h2 h
    cases l2 with
    | nil => simp at h
    | cons b t2 =>
      simp only [List.map_cons, List.cons.injEq] at h
      have hab : a = b :=
        digitChar_inj_lt a (h1 a (by simp)) b (h2 b (by simp)) h.1
      subst hab
      rw [ih t2 (fun d hd => h1 d (by simp [hd])) (fun d hd => h2 d (by simp [hd])) h.2]

theorem asString_inj {l1 l2 : List Char} (h : l1.asString = l2.asString) :
    l1 = l2 := by
  simpa [List.asString] using congrArg String.data h

theorem render_inj {l1 l2 : List Nat} (h1 : ∀ d ∈ l1, d < 10)
    (h2 : ∀ d ∈ l2, d < 10)
    (h : (l1.map Nat.digitChar).reverse.asString =
      (l2.map Nat.digitChar).reverse.asString) : l1 = l2 := by
  have hrev := asString_inj h
  have hmap := congrArg List.reverse hrev
  simp only [List.reverse_reverse] at hmap
  exact map_digitChar_inj l1 l2 h1 h2 hmap

theorem decimalStr_injective : Function.Injective decimalStr := by
  intro a b h
  unfold decimalStr at h
  split_ifs at h with ha hb hb
  · omega
  · have h0 : (([0] : List Nat).map Nat.digitChar).reverse.asString =
        ((decimalDigits b).map Nat.digitChar).reverse.asString := h
    have hdig := render_inj (by simp) (fun d hd => decimalDigits_lt b d hd) h0
    have hb2 : Nat.digits 10 b = [0] := by
      rw [← decimalDigits_eq_digits]; exact hdig.symm
    have hof := Nat.ofDigits_digits 10 b
    rw [hb2] at hof
    simp [Nat.ofDigits] at hof
    omega
  · have h0 : ((decimalDigits a).map Nat.digitChar).reverse.asString =
        (([0] : List Nat).map Nat.digitChar).reverse.asString := h
    have hdig := render_inj (fun d hd => decimalDigits_lt a d hd) (by simp) h0
    have ha2 : Nat.digits 10 a = [0] := by
      rw [← decimalDigits_eq_digits]; exact hdig
    have hof := Nat.ofDigits_digits 10 a
    rw [ha2] at hof
    simp [Nat.ofDigits] at hof
    omega
  · have hdig := render_inj (fun d hd => decimalDigits_lt a d hd)
      (fun d hd => decimalDigits_lt b d hd) h
    have : Nat.digits 10 a = Nat.digits 10 b := by
      rw [← decimalDigits_eq_digits, ← decimalDigits_eq_digits]; exact hdig
    exact Nat.digits.injective 10 this

theorem orderId_clock_inj {env : Env} {i j : Nat}
    (h : (create_order_message env i).1 = (create_order_message env j).1) :
    env.clockMs i = env.clockMs j := by
  have hds : decimalStr (env.clockMs i) = decimalStr (env.clockMs j) := by
    have h2 := congrArg String.data h
    simp only [create_order_message, String.data_append] at h2
    exact String.ext (List.append_cancel_left h2)
  exact decimalStr_injective hds

/-! ## Sampling lemmas -/

theorem randomChoice_mem (pool : List String) (r : Nat) (hp : pool ≠ []) :
    randomChoice pool r ∈ pool := by
  unfold randomChoice
  have hlen : 0 < pool.length := List.length_pos.mpr hp
  have hidx : r % pool.length < pool.length := Nat.mod_lt _ hlen
  rw [List.getD_eq_getElem pool "" hidx]
  exact List.getElem_mem hidx

theorem randomSample_subset :
    ∀ (k : Nat) (pool : List String) (r : Nat → Nat) (x : String),
      x ∈ randomSample pool k r → x ∈ pool := by
  intro k
  induction k with
  | zero => intro pool r x hx; simp [randomSample] at hx
  | succ j ih =>
    intro pool r x hx
    rw [randomSample] at hx
    split at hx
    · simp at hx
    · rcases List.mem_cons.mp hx with h | h
      · rw [h]; exact List.get_mem _ _ _
      · exact (List.eraseIdx_sublist pool _).subset (ih _ _ x h)

theorem randomSample_nodup :
    ∀ (k : Nat) (pool : List String) (r : Nat → Nat), pool.Nodup →
      (randomSample pool k r).Nodup := by
  intro k
  induction k with
  | zero => intro pool r _; simp [randomSample]
  | succ j ih =>
    intro pool r hp
    rw [randomSample]
    split
    · simp
    · refine List.nodup_cons.mpr ⟨?_, ih _ _ (List.Nodup.sublist (List.eraseIdx_sublist pool _) hp)⟩
      intro hmem
      have hmem2 := randomSample_subset j _ _ _ hmem
      obtain ⟨i2, hi2, hne, heq⟩ := List.mem_eraseIdx_iff_getElem.mp hmem2
      exact hne ((hp.getElem_inj_iff).mp heq)

theorem randomSample_length :
    ∀ (k : Nat) (pool : List String) (r : Nat → Nat), k ≤ pool.length →
      (randomSample pool k r).length = k := by
  intro k
  induction k with
  | zero => intro pool r _; simp [randomSample]
  | succ j ih =>
    intro pool r hk
    rw [randomSample]
    split
    · omega
    · have hidx : r 0 % pool.length < pool.length :=
        Nat.mod_lt _ (by omega)
      have herase : (pool.eraseIdx (r 0 % pool.length)).length = pool.length - 1 := by
        rw [List.length_eraseIdx, if_pos hidx]
      simp only [List.length_cons]
      rw [ih _ _ (by omega)]

/-! ## Event classification helpers -/

@[simp] theorem isPublish_publish (i : Nat) (t k : String) (v : OrderMessage) :
    isPublish (Event.publish i t k v) = true := rfl

@[simp] theorem isPublish_sleepFor (d : ℚ) : isPublish (Event.sleepFor d) = false := rfl

@[simp] theorem isPublish_close : isPublish Event.closeProducer = false := rfl

@[simp] theorem isPublish_done : isPublish Event.doneMessage = false := rfl

@[simp] theorem isPublish_connect : isPublish Event.connect = false := rfl

@[simp] theorem isSleep_publish (i : Nat) (t k : String) (v : OrderMessage) :
    isSleep (Event.publish i t k v) = false := rfl

@[simp] theorem isSleep_sleepFor (d : ℚ) : isSleep (Event.sleepFor d) = true := rfl

@[simp] theorem isSleep_close : isSleep Event.closeProducer = false := rfl

@[simp] theorem isSleep_done : isSleep Event.doneMessage = false := rfl

@[simp] theorem isSleep_connect : isSleep Event.connect = false := rfl

@[simp] theorem isPublish_reportEvent (env : Env) (i : Nat) :
    isPublish (reportEvent env i) = false := by
  unfold reportEvent
  cases env.delivery i <;> rfl

@[simp] theorem isSleep_reportEvent (env : Env) (i : Nat) :
    isSleep (reportEvent env i) = false := by
  unfold reportEvent
  cases env.delivery i <;> rfl

theorem reportEvent_ne_close (env : Env) (i : Nat) :
    reportEvent env i ≠ Event.closeProducer := by
  unfold reportEvent
  cases env.delivery i <;> simp

theorem reportEvent_ne_publish (env : Env) (i j : Nat) (t k : String)
    (v : OrderMessage) : reportEvent env i ≠ Event.publish j t k v := by
  unfold reportEvent
  cases env.delivery i <;> simp

/-! ## Loop lemmas -/

theorem sendLoop_clean_spec (env : Env) (d : ℚ) (hs : noSubmitErr env)
    (hi : noInterrupt env) :
    ∀ r a, (sendLoop env d a r).2 = RunResult.normal ∧
      publishCount (sendLoop env d a r).1 = r ∧
      (sendLoop env d a r).1.filter isSleep =
        List.replicate (r - 1) (Event.sleepFor d) ∧
      Event.closeProducer ∈ (sendLoop env d a r).1 ∧
      Event.doneMessage ∈ (sendLoop env d a r).1 := by
  intro r
  induction r with
  | zero =>
    intro a
    refine ⟨rfl, ?_, ?_, ?_, ?_⟩ <;> simp [sendLoop, publishCount]
  | succ r ih =>
    intro a
    obtain ⟨z1, z2, z3, z4, z5⟩ := ih (a + 1)
    rw [sendLoop]
    simp only [hs a, hi a]
    cases r with
    | zero =>
      refine ⟨?_, ?_, ?_, ?_, ?_⟩ <;> simp [sendLoop, publishCount]
    | succ r2 =>
      simp only [if_neg (Nat.succ_ne_zero r2), Bool.false_eq_true, if_false]
      refine ⟨z1, ?_, ?_, ?_, ?_⟩
      · simp only [publishCount] at z2 ⊢
        simp [List.countP_cons, z2]
      · simp only [List.filter_cons, isSleep_publish, isSleep_sleepFor,
          isSleep_reportEvent, Bool.false_eq_true, if_false, if_pos rfl] at z3 ⊢
        rw [z3]
        simp [List.replicate_succ]
      · exact List.mem_cons_of_mem _ (List.mem_cons_of_mem _
          (List.mem_cons_of_mem _ z4))
      · exact List.mem_cons_of_mem _ (List.mem_cons_of_mem _
          (List.mem_cons_of_mem _ z5))

theorem sendLoop_report_mem (env : Env) (d : ℚ) (hs : noSubmitErr env)
    (hi : noInterrupt env) :
    ∀ r a j, a ≤ j → j < a + r → reportEvent env j ∈ (sendLoop env d a r).1 := by
  intro r
  induction r with
  | zero => intro a j h1 h2; omega
  | succ r ih =>
    intro a j h1 h2
    rw [sendLoop]
    simp only [hs a, hi a]
    by_cases hj : j = a
    · subst hj
      cases r with
      | zero => simp
      | succ r2 => simp [if_neg (Nat.succ_ne_zero r2)]
    · have hr : r ≠ 0 := by omega
      have hmem := ih (a + 1) j (by omega) (by omega)
      simp only [if_neg hr, Bool.false_eq_true, if_false]
      exact List.mem_cons_of_mem _ (List.mem_cons_of_mem _
        (List.mem_cons_of_mem _ hmem))

theorem sendLoop_publish_inv (env : Env) (d : ℚ) :
    ∀ r a i t k v, Event.publish i t k v ∈ (sendLoop env d a r).1 →
      t = TOPIC_NAME ∧ k = (create_order_message env i).1 ∧
      v = (create_order_message env i).2 := by
  intro r
  induction r with
  | zero => intro a i t k v h; simp [sendLoop] at h
  | succ r ih =>
    intro a i t k v h
    rw [sendLoop] at h
    cases hsa : env.submitError a with
    | some e => rw [hsa] at h; simp at h
    | none =>
      rw [hsa] at h
      simp only [] at h
      by_cases hr : r = 0
      · subst hr
        simp only [if_pos rfl, sendLoop] at h
        rcases List.mem_cons.mp h with heq | h2
        · obtain ⟨hi2, ht, hk, hv⟩ := Event.publish.inj heq
          subst hi2
          exact ⟨ht, hk, hv⟩
        · rcases List.mem_cons.mp h2 with heq | h3
          · exact absurd heq.symm (reportEvent_ne_publish env a i t k v)
          · simp at h3
      · simp only [if_neg hr] at h
        by_cases hint : env.interruptInSleep a = true
        · simp only [hint, if_pos rfl] at h
          rcases List.mem_cons.mp h with heq | h2
          · obtain ⟨hi2, ht, hk, hv⟩ := Event.publish.inj heq
            subst hi2
            exact ⟨ht, hk, hv⟩
          · rcases List.mem_cons.mp h2 with heq | h3
            · exact absurd heq.symm (reportEvent_ne_publish env a i t k v)
            · simp at h3
        · simp only [hint, Bool.false_eq_true, if_false] at h
          rcases List.mem_cons.mp h with heq | h2
          · obtain ⟨hi2, ht, hk, hv⟩ := Event.publish.inj heq
            subst hi2
            exact ⟨ht, hk, hv⟩
          · rcases List.mem_cons.mp h2 with heq | h3
            · exact absurd heq.symm (reportEvent_ne_publish env a i t k v)
            · rcases List.mem_cons.mp h3 with heq | h4
              · simp at heq
              · exact ih (a + 1) i t k v h4

theorem sendLoop_tail (env : Env) (d : ℚ) (hs : noSubmitErr env)
    (hi : noInterrupt env) :
    ∀ r a, 1 ≤ r → ∃ pre, (sendLoop env d a r).1 = pre ++
      [Event.publish (a + r - 1) TOPIC_NAME
         (create_order_message env (a + r - 1)).1
         (create_order_message env (a + r - 1)).2,
       reportEvent env (a + r - 1), Event.closeProducer, Event.doneMessage] := by
  intro r
  induction r with
  | zero => intro a h; omega
  | succ r ih =>
    intro a _
    rw [sendLoop]
    simp only [hs a, hi a]
    cases r with
    | zero =>
      refine ⟨[], ?_⟩
      simp [sendLoop]
    | succ r2 =>
      obtain ⟨pre, hpre⟩ := ih (a + 1) (by omega)
      refine ⟨Event.publish a TOPIC_NAME (create_order_message env a).1
        (create_order_message env a).2 :: reportEvent env a ::
        Event.sleepFor d :: pre, ?_⟩
      simp only [if_neg (Nat.succ_ne_zero r2), Bool.false_eq_true, if_false]
      have hidx : a + 1 + (r2 + 1) - 1 = a + (r2 + 1 + 1) - 1 := by omega
      rw [hidx] at hpre
      simp [hpre]

theorem sendLoop_interrupt (env : Env) (d : ℚ) :
    ∀ k a r, (∀ j, a ≤ j → j < a + k → env.interruptInSleep j = false) →
      env.interruptInSleep (a + k) = true →
      (∀ j, a ≤ j → j ≤ a + k → env.submitError j = none) →
      k + 1 < r →
      (sendLoop env d a r).2 = RunResult.raised PyErr.keyboardInterrupt ∧
      publishCount (sendLoop env d a r).1 = k + 1 ∧
      Event.closeProducer ∉ (sendLoop env d a r).1 := by
  intro k
  induction k with
  | zero =>
    intro a r hpre hint hsub hr
    obtain ⟨r2, rfl⟩ : ∃ r2, r = r2 + 1 := ⟨r - 1, by omega⟩
    have hr2 : r2 ≠ 0 := by omega
    have hs0 : env.submitError a = none := hsub a le_rfl (by omega)
    have hi0 : env.interruptInSleep a = true := by simpa using hint
    rw [sendLoop]
    simp only [hs0, hi0, if_neg hr2, if_pos rfl]
    refine ⟨rfl, ?_, ?_⟩
    · simp [publishCount, List.countP_cons]
    · intro hmem
      rcases List.mem_cons.mp hmem with heq | h2
      · simp at heq
      · rcases List.mem_cons.mp h2 with heq | h3
        · exact reportEvent_ne_close env a heq.symm
        · simp at h3
  | succ k ih =>
    intro a r hpre hint hsub hr
    obtain ⟨r2, rfl⟩ : ∃ r2, r = r2 + 1 := ⟨r - 1, by omega⟩
    have hr2 : r2 ≠ 0 := by omega
    have hs0 : env.submitError a = none := hsub a le_rfl (by omega)
    have hi0 : env.interruptInSleep a = false := hpre a le_rfl (by omega)
    have hint2 : env.interruptInSleep (a + 1 + k) = true := by
      have heq : a + 1 + k = a + (k + 1) := by omega
      rw [heq]; exact hint
    obtain ⟨i1, i2, i3⟩ := ih (a + 1) r2
      (fun j hj1 hj2 => hpre j (by omega) (by omega)) hint2
      (fun j hj1 hj2 => hsub j (by omega) (by omega)) (by omega)
    rw [sendLoop]
    simp only [hs0, hi0, if_neg hr2, Bool.false_eq_true, if_false]
    refine ⟨i1, ?_, ?_⟩
    · simp only [publishCount] at i2 ⊢
      simp [List.countP_cons, i2]
    · intro hmem
      rcases List.mem_cons.mp hmem with heq | h2
      · simp at heq
      · rcases List.mem_cons.mp h2 with heq | h3
        · exact reportEvent_ne_close env a heq.symm
        · rcases List.mem_cons.mp h3 with heq | h4
          · simp at heq
          · exact i3 h4

theorem sendLoop_submitErr (env : Env) (d : ℚ) :
    ∀ k a r e, (∀ j, a ≤ j → j < a + k → env.submitError j = none) →
      (∀ j, a ≤ j → j < a + k → env.interruptInSleep j = false) →
      env.submitError (a + k) = some e →
      k < r →
      (sendLoop env d a r).2 = RunResult.raised (PyErr.submitFailure e) ∧
      publishCount (sendLoop env d a r).1 = k ∧
      Event.closeProducer ∉ (sendLoop env d a r).1 := by
  intro k
  induction k with
  | zero =>
    intro a r e hpre hint hsub hr
    obtain ⟨r2, rfl⟩ : ∃ r2, r = r2 + 1 := ⟨r - 1, by omega⟩
    have hs0 : env.submitError a = some e := by simpa using hsub
    rw [sendLoop]
    simp only [hs0]
    refine ⟨?_, ?_, ?_⟩ <;> simp [publishCount]
  | succ k ih =>
    intro a r e hpre hint hsub hr
    obtain ⟨r2, rfl⟩ : ∃ r2, r = r2 + 1 := ⟨r - 1, by omega⟩
    have hr2 : r2 ≠ 0 := by omega
    have hs0 : env.submitError a = none := hpre a le_rfl (by omega)
    have hi0 : env.interruptInSleep a = false := hint a le_rfl (by omega)
    have hsub2 : env.submitError (a + 1 + k) = some e := by
      have heq : a + 1 + k = a + (k + 1) := by omega
      rw [heq]; exact hsub
    obtain ⟨i1, i2, i3⟩ := ih (a + 1) r2 e
      (fun j hj1 hj2 => hpre j (by omega) (by omega))
      (fun j hj1 hj2 => hint j (by omega) (by omega)) hsub2 (by omega)
    rw [sendLoop]
    simp only [hs0, hi0, if_neg hr2, Bool.false_eq_true, if_false]
    refine ⟨i1, ?_, ?_⟩
    · simp only [publishCount] at i2 ⊢
      simp [List.countP_cons, i2]
    · intro hmem
      rcases List.mem_cons.mp hmem with heq | h2
      · simp at heq
      · rcases List.mem_cons.mp h2 with heq | h3
        · exact reportEvent_ne_close env a heq.symm
        · rcases List.mem_cons.mp h3 with heq | h4
          · simp at heq
          · exact i3 h4

/-! ## Run-level helper lemmas -/

theorem send_messages_nat (env : Env) (d : ℚ) (n : Nat) :
    send_messages env (n : Int) d =
      (Event.connect :: (sendLoop env d 0 n).1, (sendLoop env d 0 n).2) := by
  simp [send_messages]

theorem dispatchOutcome_normal (r : List Event × RunResult)
    (h : r.2 = RunResult.normal) :
    dispatchOutcome r = (r.1, MainOutcome.completed) := by
  unfold dispatchOutcome
  rw [h]

theorem dispatchOutcome_interrupted (r : List Event × RunResult)
    (h : r.2 = RunResult.raised PyErr.keyboardInterrupt) :
    dispatchOutcome r = (r.1, MainOutcome.interrupted) := by
  unfold dispatchOutcome
  rw [h]

theorem dispatchOutcome_error (r : List Event × RunResult) (e : String)
    (h : r.2 = RunResult.raised (PyErr.submitFailure e)) :
    dispatchOutcome r = (r.1, MainOutcome.errorReported e) := by
  unfold dispatchOutcome
  rw [h]

theorem publishCount_connect_cons (l : List Event) :
    publishCount (Event.connect :: l) = publishCount l := by
  simp [publishCount, List.countP_cons]

theorem sleepCount_connect_cons (l : List Event) :
    sleepCount (Event.connect :: l) = sleepCount l := by
  simp [sleepCount, List.countP_cons]

/-! ## Claim theorems -/

/-- Claim C2, counterexample: it is not true that every pair of distinct
iterations yields distinct `orderId` values.  The orderId is
`order-` followed by the millisecond clock reading, so two iterations that
observe the same millisecond (here, a constant clock) produce the same
orderId. -/
theorem claim_C2_counterexample :
    ¬ ∀ (env : Env) (i j : Nat), i ≠ j →
        (create_order_message env i).1 ≠ (create_order_message env j).1 := by
  intro h
  exact h stubEnv 0 1 (by decide) rfl

/-- Claim C2 (amended): two iterations of a run generate different
`orderId` values whenever their millisecond clock readings differ; the
orderId is the fixed text `order-` followed by the decimal rendering of
the millisecond clock, so iterations that share a millisecond produce
identical orderIds and uniqueness within the run is not guaranteed. -/
theorem claim_C2_amended (env : Env) (i j : Nat)
    (hclock : env.clockMs i ≠ env.clockMs j) :
    (create_order_message env i).1 ≠ (create_order_message env j).1 := by
  intro h
  exact hclock (orderId_clock_inj h)

/-- Witness for the amended C2: with a clock that advances each iteration,
iterations 0 and 1 get different orderIds. -/
theorem claim_C2_witness :
    envTickingClock.clockMs 0 ≠ envTickingClock.clockMs 1 ∧
    (create_order_message envTickingClock 0).1 ≠
      (create_order_message envTickingClock 1).1 :=
  ⟨by decide, claim_C2_amended envTickingClock 0 1 (by decide)⟩

/-- Claim C3: every generated record's `productIds` has between 1 and 3
entries, has no duplicates, and draws every entry from the fixed product
catalog. -/
theorem claim_C3_productIds_invariant (env : Env) (i : Nat) :
    1 ≤ (create_order_message env i).2.productIds.length ∧
    (create_order_message env i).2.productIds.length ≤ 3 ∧
    (create_order_message env i).2.productIds.Nodup ∧
    (create_order_message env i).2.productIds ⊆ PRODUCT_IDS := by
  have hmod : env.numR i % 3 < 3 := Nat.mod_lt _ (by norm_num)
  have hk1 : 1 ≤ randint1to3 (env.numR i) := by unfold randint1to3; omega
  have hk3 : randint1to3 (env.numR i) ≤ 3 := by unfold randint1to3; omega
  have hplen : PRODUCT_IDS.length = 5 := rfl
  have hlen := randomSample_length (randint1to3 (env.numR i)) PRODUCT_IDS
    (env.sampleR i) (by omega)
  refine ⟨?_, ?_, ?_, ?_⟩
  · show 1 ≤ (randomSample PRODUCT_IDS (randint1to3 (env.numR i))
      (env.sampleR i)).length
    omega
  · show (randomSample PRODUCT_IDS (randint1to3 (env.numR i))
      (env.sampleR i)).length ≤ 3
    omega
  · exact randomSample_nodup _ _ _ (by decide)
  · intro x hx
    exact randomSample_subset _ _ _ x hx

/-- Witness for C3 at the stub environment, iteration 0. -/
theorem claim_C3_witness :
    1 ≤ (create_order_message stubEnv 0).2.productIds.length ∧
    (create_order_message stubEnv 0).2.productIds.length ≤ 3 ∧
    (create_order_message stubEnv 0).2.productIds.Nodup ∧
    (create_order_message stubEnv 0).2.productIds ⊆ PRODUCT_IDS :=
  claim_C3_productIds_invariant stubEnv 0

/-- Claim C7: every generated record's `customerId` belongs to the fixed
5-element sample customer catalog. -/
theorem claim_C7_customerId_in_catalog (env : Env) (i : Nat) :
    (create_order_message env i).2.customerId ∈ CUSTOMER_IDS ∧
    CUSTOMER_IDS.length = 5 := by
  constructor
  · show randomChoice CUSTOMER_IDS (env.choiceR i) ∈ CUSTOMER_IDS
    exact randomChoice_mem _ _ (by decide)
  · rfl

/-- Witness for C7 at the stub environment, iteration 0. -/
theorem claim_C7_witness :
    (create_order_message stubEnv 0).2.customerId ∈ CUSTOMER_IDS ∧
    CUSTOMER_IDS.length = 5 :=
  claim_C7_customerId_in_catalog stubEnv 0

/-- Claim C10: for a nonpositive count the loop body never runs, yet the
run still connects, closes the producer, prints the completion message,
and terminates normally, with zero publish calls and zero sleeps. -/
theorem claim_C10_nonpositive_count (env : Env) (d : ℚ) (n : Int)
    (hn : n ≤ 0) :
    send_messages env n d =
      ([Event.connect, Event.closeProducer, Event.doneMessage],
        RunResult.normal) ∧
    publishCount (send_messages env n d).1 = 0 ∧
    sleepCount (send_messages env n d).1 = 0 := by
  have ht : n.toNat = 0 := Int.toNat_of_nonpos hn
  have h1 : send_messages env n d =
      ([Event.connect, Event.closeProducer, Event.doneMessage],
        RunResult.normal) := by
    unfold send_messages
    rw [ht]
    rfl
  refine ⟨h1, ?_, ?_⟩ <;> rw [h1] <;> rfl

/-- Witness for C10 at count `-1`. -/
theorem claim_C10_witness :
    (-1 : Int) ≤ 0 ∧
    (send_messages stubEnv (-1) 0 =
      ([Event.connect, Event.closeProducer, Event.doneMessage],
        RunResult.normal) ∧
     publishCount (send_messages stubEnv (-1) 0).1 = 0 ∧
     sleepCount (send_messages stubEnv (-1) 0).1 = 0) :=
  ⟨by decide, claim_C10_nonpositive_count stubEnv 0 (-1) (by decide)⟩

/-- Claim C1: when the delivery wait for message `i` reports a delivery
error, the per-message handler catches it and prints the failure report for
`i`, and the loop continues: all `n` publish calls are still performed,
every message whose delivery succeeds gets a success report, and the run
ends normally. -/
theorem claim_C1_delivery_failure_caught (env : Env) (d : ℚ) (n i : Nat)
    (m : String) (hs : noSubmitErr env) (hi : noInterrupt env)
    (hin : i < n) (hdel : env.delivery i = DeliveryOutcome.kafkaError m) :
    Event.failureReport i m ∈ (send_messages env (n : Int) d).1 ∧
    publishCount (send_messages env (n : Int) d).1 = n ∧
    (∀ j t p o, j < n → env.delivery j = DeliveryOutcome.ok t p o →
      Event.successReport j t p o ∈ (send_messages env (n : Int) d).1) ∧
    (send_messages env (n : Int) d).2 = RunResult.normal := by
  rw [send_messages_nat]
  obtain ⟨c1, c2, c3, c4, c5⟩ := sendLoop_clean_spec env d hs hi n 0
  refine ⟨?_, ?_, ?_, c1⟩
  · have hrep : reportEvent env i = Event.failureReport i m := by
      unfold reportEvent
      rw [hdel]
    have hmem := sendLoop_report_mem env d hs hi n 0 i (by omega) (by omega)
    rw [hrep] at hmem
    exact List.mem_cons_of_mem _ hmem
  · rw [publishCount_connect_cons]
    exact c2
  · intro j t p o hj hok
    have hrep : reportEvent env j = Event.successReport j t p o := by
      unfold reportEvent
      rw [hok]
    have hmem := sendLoop_report_mem env d hs hi n 0 j (by omega) (by omega)
    rw [hrep] at hmem
    exact List.mem_cons_of_mem _ hmem

/-- Witness for C1: a stub whose second delivery (index 1) fails with
`boom` and count 3 — the failure is reported, messages 0 and 2 are
reported as successes, and all 3 publish calls happen. -/
theorem claim_C1_witness :
    noSubmitErr envSecondDeliveryFails ∧ noInterrupt envSecondDeliveryFails ∧
    (1 : Nat) < 3 ∧
    envSecondDeliveryFails.delivery 1 = DeliveryOutcome.kafkaError "boom" ∧
    (Event.failureReport 1 "boom" ∈
        (send_messages envSecondDeliveryFails ((3 : Nat) : Int) 0).1 ∧
      publishCount (send_messages envSecondDeliveryFails ((3 : Nat) : Int) 0).1 = 3 ∧
      (∀ j t p o, j < 3 →
        envSecondDeliveryFails.delivery j = DeliveryOutcome.ok t p o →
        Event.successReport j t p o ∈
          (send_messages envSecondDeliveryFails ((3 : Nat) : Int) 0).1) ∧
      (send_messages envSecondDeliveryFails ((3 : Nat) : Int) 0).2 =
        RunResult.normal) :=
  ⟨fun _ => rfl, fun _ => rfl, by decide, rfl,
    claim_C1_delivery_failure_caught envSecondDeliveryFails 0 3 1 "boom"
      (fun _ => rfl) (fun _ => rfl) (by decide) rfl⟩

/-- Claim C5: for count `n ≥ 1` (no submit errors, no interrupts) the loop
performs exactly `n` publish calls and exactly `n - 1` sleeps of `d`
seconds each; the sleeps sit between submissions, and after the final
publish come only its report, the close, and the completion print — never
a sleep. -/
theorem claim_C5_publish_and_sleep_counts (env : Env) (d : ℚ) (n : Nat)
    (hn : 1 ≤ n) (hs : noSubmitErr env) (hi : noInterrupt env) :
    publishCount (send_messages env (n : Int) d).1 = n ∧
    sleepCount (send_messages env (n : Int) d).1 = n - 1 ∧
    (send_messages env (n : Int) d).1.filter isSleep =
      List.replicate (n - 1) (Event.sleepFor d) ∧
    ∃ pre, (send_messages env (n : Int) d).1 = Event.connect :: pre ++
      [Event.publish (n - 1) TOPIC_NAME (create_order_message env (n - 1)).1
         (create_order_message env (n - 1)).2,
       reportEvent env (n - 1), Event.closeProducer, Event.doneMessage] := by
  rw [send_messages_nat]
  obtain ⟨c1, c2, c3, c4, c5⟩ := sendLoop_clean_spec env d hs hi n 0
  obtain ⟨pre, hpre⟩ := sendLoop_tail env d hs hi n 0 hn
  refine ⟨?_, ?_, ?_, ⟨pre, ?_⟩⟩
  · rw [publishCount_connect_cons]
    exact c2
  · rw [sleepCount_connect_cons]
    unfold sleepCount
    rw [List.countP_eq_length_filter, c3, List.length_replicate]
  · simp only [List.filter_cons, isSleep_connect, Bool.false_eq_true,
      if_false]
    exact c3
  · simp only [Nat.zero_add] at hpre
    rw [hpre]
    rfl

/-- Witness for C5 at count 1: one publish call and no sleep. -/
theorem claim_C5_witness :
    (1 : Nat) ≤ 1 ∧ noSubmitErr stubEnv ∧ noInterrupt stubEnv ∧
    (publishCount (send_messages stubEnv ((1 : Nat) : Int) 0).1 = 1 ∧
      sleepCount (send_messages stubEnv ((1 : Nat) : Int) 0).1 = 0 ∧
      (send_messages stubEnv ((1 : Nat) : Int) 0).1.filter isSleep =
        List.replicate 0 (Event.sleepFor 0) ∧
      ∃ pre, (send_messages stubEnv ((1 : Nat) : Int) 0).1 =
        Event.connect :: pre ++
        [Event.publish 0 TOPIC_NAME (create_order_message stubEnv 0).1
           (create_order_message stubEnv 0).2,
         reportEvent stubEnv 0, Event.closeProducer, Event.doneMessage]) :=
  ⟨le_rfl, fun _ => rfl, fun _ => rfl,
    claim_C5_publish_and_sleep_counts stubEnv 0 1 le_rfl
      (fun _ => rfl) (fun _ => rfl)⟩

/-- Claim C8: the CLI parses `--count` as an integer defaulting to 10 and
`--delay` as seconds defaulting to 2.0, and a run with no flags (and a
well-behaved broker) performs 10 publish calls with a 2.0-second sleep
between consecutive sends (9 sleeps), completing normally. -/
theorem claim_C8_cli_defaults (env : Env) (hs : noSubmitErr env)
    (hi : noInterrupt env) :
    parsedCount none = 10 ∧ parsedDelay none = 2 ∧
    publishCount (main env none none).1 = 10 ∧
    (main env none none).1.filter isSleep =
      List.replicate 9 (Event.sleepFor 2) ∧
    (main env none none).2 = MainOutcome.completed := by
  obtain ⟨c1, c2, c3, c4, c5⟩ := sendLoop_clean_spec env 2 hs hi 10 0
  have hsend : send_messages env (parsedCount none) (parsedDelay none) =
      (Event.connect :: (sendLoop env 2 0 10).1, (sendLoop env 2 0 10).2) := by
    show send_messages env ((10 : Nat) : Int) 2 = _
    exact send_messages_nat env 2 10
  have hmain : main env none none =
      (Event.connect :: (sendLoop env 2 0 10).1, MainOutcome.completed) := by
    unfold main
    rw [dispatchOutcome_normal _ (by rw [hsend]; exact c1), hsend]
  refine ⟨rfl, rfl, ?_, ?_, ?_⟩
  · rw [hmain]
    simpa [publishCount_connect_cons] using c2
  · rw [hmain]
    simp only [List.filter_cons, isSleep_connect, Bool.false_eq_true,
      if_false]
    exact c3
  · rw [hmain]

/-- Witness for C8 with the all-success stub broker. -/
theorem claim_C8_witness :
    noSubmitErr stubEnv ∧ noInterrupt stubEnv ∧
    (parsedCount none = 10 ∧ parsedDelay none = 2 ∧
      publishCount (main stubEnv none none).1 = 10 ∧
      (main stubEnv none none).1.filter isSleep =
        List.replicate 9 (Event.sleepFor 2) ∧
      (main stubEnv none none).2 = MainOutcome.completed) :=
  ⟨fun _ => rfl, fun _ => rfl,
    claim_C8_cli_defaults stubEnv (fun _ => rfl) (fun _ => rfl)⟩

/-- Claim C4, counterexample: with an operator interrupt raised between
iterations (during the sleep after message 0, with message 1 still
pending), the run is indeed cut short by `KeyboardInterrupt` — but
`producer.close()` is never reached: `closeProducer` is absent from the
trace, because the close call is not in a `finally` block.  This refutes
the part of the claim asserting the client connection is still
released. -/
theorem claim_C4_counterexample :
    envInterruptAfterFirst.interruptInSleep 0 = true ∧
    (send_messages envInterruptAfterFirst 2 0).2 =
      RunResult.raised PyErr.keyboardInterrupt ∧
    Event.closeProducer ∉ (send_messages envInterruptAfterFirst 2 0).1 := by
  decide

/-- Claim C4 (amended): if an interrupt is raised between iterations
(during the sleep after message `i`, with further messages pending), the
loop stops before starting the next build step — exactly `i + 1` publish
calls happen — and the `KeyboardInterrupt` propagates out of
`send_messages` to `main`'s handler; the client connection is NOT
released: `producer.close()` is skipped. -/
theorem claim_C4_interrupt_skips_close (env : Env) (d : ℚ) (n i : Nat)
    (hpre : ∀ j, j < i → env.interruptInSleep j = false)
    (hint : env.interruptInSleep i = true)
    (hsub : ∀ j, j ≤ i → env.submitError j = none)
    (hin : i + 1 < n) :
    (send_messages env (n : Int) d).2 =
      RunResult.raised PyErr.keyboardInterrupt ∧
    publishCount (send_messages env (n : Int) d).1 = i + 1 ∧
    Event.closeProducer ∉ (send_messages env (n : Int) d).1 ∧
    (main env (some ((n : Nat) : Int)) (some d)).2 = MainOutcome.interrupted := by
  obtain ⟨s1, s2, s3⟩ := sendLoop_interrupt env d i 0 n
    (fun j h1 h2 => hpre j (by omega)) (by simpa using hint)
    (fun j h1 h2 => hsub j (by omega)) (by omega)
  rw [send_messages_nat]
  refine ⟨s1, ?_, ?_, ?_⟩
  · rw [publishCount_connect_cons]
    exact s2
  · intro hmem
    rcases List.mem_cons.mp hmem with heq | h2
    · simp at heq
    · exact s3 h2
  · have hsend : (send_messages env (parsedCount (some ((n : Nat) : Int)))
        (parsedDelay (some d))).2 = RunResult.raised PyErr.keyboardInterrupt := by
      show (send_messages env ((n : Nat) : Int) d).2 = _
      rw [send_messages_nat]
      exact s1
    unfold main
    rw [dispatchOutcome_interrupted _ hsend]

/-- Witness for the amended C4: interrupt during the sleep after message 0
of a 2-message run. -/
theorem claim_C4_witness :
    envInterruptAfterFirst.interruptInSleep 0 = true ∧ (0 : Nat) + 1 < 2 ∧
    ((send_messages envInterruptAfterFirst ((2 : Nat) : Int) 0).2 =
        RunResult.raised PyErr.keyboardInterrupt ∧
      publishCount (send_messages envInterruptAfterFirst ((2 : Nat) : Int) 0).1 = 1 ∧
      Event.closeProducer ∉
        (send_messages envInterruptAfterFirst ((2 : Nat) : Int) 0).1 ∧
      (main envInterruptAfterFirst (some ((2 : Nat) : Int)) (some 0)).2 =
        MainOutcome.interrupted) :=
  ⟨rfl, by decide,
    claim_C4_interrupt_skips_close envInterruptAfterFirst 0 2 0
      (fun j h => absurd h (Nat.not_lt_zero j)) rfl (fun _ _ => rfl)
      (by decide)⟩

/-- Claim C9: if `producer.send` itself raises for message `i` (the first
such message, with no earlier interrupt), the per-message handler does not
catch it: the loop aborts with exactly `i` publish calls performed, no
further messages are attempted, `producer.close()` is skipped, and only
the top-level handler deals with the error, logging it and letting the
process end. -/
theorem claim_C9_submit_error_aborts (env : Env) (d : ℚ) (n i : Nat)
    (e : String)
    (hpre : ∀ j, j < i → env.submitError j = none)
    (hint : ∀ j, j < i → env.interruptInSleep j = false)
    (hsub : env.submitError i = some e)
    (hin : i < n) :
    (send_messages env (n : Int) d).2 =
      RunResult.raised (PyErr.submitFailure e) ∧
    publishCount (send_messages env (n : Int) d).1 = i ∧
    Event.closeProducer ∉ (send_messages env (n : Int) d).1 ∧
    (main env (some ((n : Nat) : Int)) (some d)).2 =
      MainOutcome.errorReported e := by
  obtain ⟨s1, s2, s3⟩ := sendLoop_submitErr env d i 0 n e
    (fun j h1 h2 => hpre j (by omega)) (fun j h1 h2 => hint j (by omega))
    (by simpa using hsub) (by omega)
  rw [send_messages_nat]
  refine ⟨s1, ?_, ?_, ?_⟩
  · rw [publishCount_connect_cons]
    exact s2
  · intro hmem
    rcases List.mem_cons.mp hmem with heq | h2
    · simp at heq
    · exact s3 h2
  · have hsend : (send_messages env (parsedCount (some ((n : Nat) : Int)))
        (parsedDelay (some d))).2 =
        RunResult.raised (PyErr.submitFailure e) := by
      show (send_messages env ((n : Nat) : Int) d).2 = _
      rw [send_messages_nat]
      exact s1
    unfold main
    rw [dispatchOutcome_error _ e hsend]

/-- Witness for C9: the second submit (index 1) raises in a 3-message run;
exactly one publish call happens and the error reaches the top-level
handler. -/
theorem claim_C9_witness :
    envSecondSubmitFails.submitError 1 = some "broker down" ∧ (1 : Nat) < 3 ∧
    ((send_messages envSecondSubmitFails ((3 : Nat) : Int) 0).2 =
        RunResult.raised (PyErr.submitFailure "broker down") ∧
      publishCount (send_messages envSecondSubmitFails ((3 : Nat) : Int) 0).1 = 1 ∧
      Event.closeProducer ∉
        (send_messages envSecondSubmitFails ((3 : Nat) : Int) 0).1 ∧
      (main envSecondSubmitFails (some ((3 : Nat) : Int)) (some 0)).2 =
        MainOutcome.errorReported "broker down") :=
  ⟨rfl, by decide,
    claim_C9_submit_error_aborts envSecondSubmitFails 0 3 1 "broker down"
      (fun j h => by
        have hj : j = 0 := by omega
        subst hj
        rfl)
      (fun j h => rfl) rfl (by decide)⟩

/-- Claim C6: every publish call in any run targets the fixed topic with
the record just built for that iteration; its wire value serializes to a
JSON object with exactly the four Order Event fields in order (`orderId`,
`customerId`, `productIds`, `timestamp`), and its key is the record's
`orderId` string, encoded to bytes by the key serializer. -/
theorem claim_C6_wire_format (env : Env) (d : ℚ) (n : Int) (i : Nat)
    (t k : String) (v : OrderMessage)
    (hmem : Event.publish i t k v ∈ (send_messages env n d).1) :
    t = TOPIC_NAME ∧ v = (create_order_message env i).2 ∧ k = v.orderId ∧
    (jsonOfOrder v).map Prod.fst =
      ["orderId", "customerId", "productIds", "timestamp"] ∧
    encodeKey k = encodeKey v.orderId := by
  have hmem2 : Event.publish i t k v ∈ (sendLoop env d 0 n.toNat).1 := by
    rcases List.mem_cons.mp hmem with heq | h2
    · simp at heq
    · exact h2
  obtain ⟨ht, hk, hv⟩ := sendLoop_publish_inv env d n.toNat 0 i t k v hmem2
  have hkv : k = v.orderId := by
    rw [hk, hv]
    rfl
  exact ⟨ht, hv, hkv, rfl, by rw [hkv]⟩

/-- Witness for C6: the single publish call of a one-message stub run. -/
theorem claim_C6_witness :
    Event.publish 0 "orders" "order-0"
        ⟨"order-0", "customer-001", ["product-001"], "2024-01-01T00:00:00"⟩ ∈
      (send_messages stubEnv 1 0).1 ∧
    ("orders" = TOPIC_NAME ∧
      (⟨"order-0", "customer-001", ["product-001"],
          "2024-01-01T00:00:00"⟩ : OrderMessage) =
        (create_order_message stubEnv 0).2 ∧
      "order-0" =
        (⟨"order-0", "customer-001", ["product-001"],
            "2024-01-01T00:00:00"⟩ : OrderMessage).orderId ∧
      (jsonOfOrder ⟨"order-0", "customer-001", ["product-001"],
          "2024-01-01T00:00:00"⟩).map Prod.fst =
        ["orderId", "customerId", "productIds", "timestamp"] ∧
      encodeKey "order-0" =
        encodeKey (⟨"order-0", "customer-001", ["product-001"],
            "2024-01-01T00:00:00"⟩ : OrderMessage).orderId) :=
  ⟨by decide,
    claim_C6_wire_format stubEnv 0 1 0 "orders" "order-0"
      ⟨"order-0", "customer-001", ["product-001"], "2024-01-01T00:00:00"⟩
      (by decide)⟩

end SendTestMessages
